import Mathlib

/-!
Verification of the IDAES/examples notebook variant-derivation pipeline.

The preprocessing code itself (the `idaes_examples.build` / `idaes_examples.util`
modules) is not part of the packaged sources here, so the Cell-Tag Variant
Deriver and the Notebook Collection Discoverer are modelled from the written
specification and the in-repo developer documentation (`README-developer.md`,
`tutorial.md`), which describe the tag rules, the variant suffix table, the
`idaes.skip` metadata, and the error taxonomy.
-/

namespace IdaesEx

/-- The five variant kinds a source notebook can be derived into. -/
inductive Kind where
  | test
  | doc
  | exercise
  | solution
  | user
deriving DecidableEq, Repr

/-- Modelled from the spec: a notebook cell has a type (markdown or code, kept
as a string exactly as in the `.ipynb` JSON), a body, a list of string tags
from `metadata.tags`, and execution outputs with an execution count (used by
the cached-execution merge). -/
structure Cell where
  cellType : String
  src : String
  tags : List String
  outputs : List String
  execCount : Option Nat
deriving DecidableEq, Repr

/-- Modelled from the spec: a notebook document is an ordered sequence of
cells plus notebook-level metadata, of which only the `idaes.skip` list of
variant-kind names matters to derivation. -/
structure Notebook where
  cells : List Cell
  skip : List String
deriving DecidableEq, Repr

/-- Modelled from the spec and `README-developer.md` (table of notebook
types): the filename suffix emitted for each variant kind: `_test`, `_doc`,
`_exercise`, `_solution`, `_usr`. -/
def extName : Kind → String
  | .test => "test"
  | .doc => "doc"
  | .exercise => "exercise"
  | .solution => "solution"
  | .user => "usr"

/-- Modelled from the spec: the set of tags whose presence on a cell removes
that cell from a given variant.  Resolved from the rule table in the spec and
the tag list in `README-developer.md`:
`testing` cells are kept only in `test`; `exercise` and `solution` cells are
dropped from `test` (which keeps only auto-or-untagged plus testing cells);
`noauto` cells are dropped from the automated `test` and `doc` variants and
kept elsewhere (per `README-developer.md` and `tutorial.md`); `auto` cells are
kept only in `test` and `doc`; `exercise` cells are dropped from `doc`;
`solution` cells are dropped from `exercise` but kept in `doc`
(per `README-developer.md`: keep the cell in the documentation notebook). -/
def excludeTags : Kind → List String
  | .test => ["exercise", "solution", "noauto"]
  | .doc => ["testing", "noauto", "exercise"]
  | .exercise => ["testing", "solution", "auto"]
  | .solution => ["testing", "auto"]
  | .user => ["testing", "auto"]

/-- Modelled from the spec: a cell is kept in a variant iff none of its tags
is in that variant's exclusion set; unrecognized tags are inert. -/
def keepCell (k : Kind) (c : Cell) : Bool :=
  !(c.tags.any fun t => (excludeTags k).contains t)

/-- Modelled from the spec: the retained subsequence of cells for one
variant: filter cell-by-cell, preserving order. -/
def filterCells (k : Kind) (nb : Notebook) : List Cell :=
  nb.cells.filter (keepCell k)

/-- Modelled from the spec: a notebook is a tutorial iff some cell carries
the `exercise` or the `solution` tag. -/
def isTutorial (nb : Notebook) : Bool :=
  nb.cells.any fun c => c.tags.contains "exercise" || c.tags.contains "solution"

/-- Modelled from the spec: `derive` maps a source notebook to at most one
derived notebook per variant kind.  A kind named in the notebook's
`idaes.skip` metadata is omitted from the output mapping entirely; the
`exercise` and `solution` variants are produced only for tutorial notebooks;
otherwise the derived notebook is the source with each variant's excluded
cells deleted. -/
def derive (nb : Notebook) (k : Kind) : Option Notebook :=
  if nb.skip.contains (extName k) then none
  else if (k == Kind.exercise || k == Kind.solution) && !isTutorial nb then none
  else some { nb with cells := filterCells k nb }

/- Helper lemmas about cell retention. -/

theorem keepCell_eq_true_iff (k : Kind) (c : Cell) :
    keepCell k c = true ↔ ∀ t ∈ c.tags, t ∉ excludeTags k := by
  simp [keepCell, List.any_eq_true, List.elem_iff]

theorem keepCell_eq_false_of_mem {k : Kind} {c : Cell} {t : String}
    (h1 : t ∈ c.tags) (h2 : t ∈ excludeTags k) : keepCell k c = false := by
  simp [keepCell, List.any_eq_true, List.elem_iff]
  exact ⟨t, h1, h2⟩

theorem mem_filterCells_iff (k : Kind) (nb : Notebook) (c : Cell) :
    c ∈ filterCells k nb ↔ c ∈ nb.cells ∧ keepCell k c = true := by
  simp [filterCells, List.mem_filter]

/-- C2: for every source notebook and every variant kind, the derived
notebook's cell sequence is an order-preserving subsequence of the source
cell sequence: derivation only deletes whole cells and never reorders,
edits, duplicates, or inserts any cell. -/
theorem derived_cells_sublist (nb : Notebook) (k : Kind) (nb' : Notebook)
    (h : derive nb k = some nb') : List.Sublist nb'.cells nb.cells := by
  unfold derive at h
  split at h
  · exact absurd h (by simp)
  · split at h
    · exact absurd h (by simp)
    · cases h
      exact List.filter_sublist _

/-- Witness for C2: the doc variant of a concrete two-cell notebook (second
cell tagged `testing`) is a sublist of the source cells. -/
theorem derived_cells_sublist_witness :
    List.Sublist
      [Cell.mk "code" "x = 1" [] [] none]
      [Cell.mk "code" "x = 1" [] [] none,
       Cell.mk "code" "assert x" ["testing"] [] none] :=
  derived_cells_sublist
    (Notebook.mk [Cell.mk "code" "x = 1" [] [] none,
                  Cell.mk "code" "assert x" ["testing"] [] none] [])
    Kind.doc
    (Notebook.mk [Cell.mk "code" "x = 1" [] [] none] [])
    (by rfl)

/- Concrete cells used in fixtures. -/

def cPlain : Cell := Cell.mk "code" "x = 1" [] [] none

def cTesting : Cell := Cell.mk "code" "assert x == 1" ["testing"] [] none

def cNoauto : Cell := Cell.mk "code" "input()" ["noauto"] [] none

def cExercise : Cell := Cell.mk "code" "# fill this in" ["exercise"] [] none

def cSolution : Cell := Cell.mk "code" "answer = 42" ["solution"] [] none

/-- C1 counterexample: a notebook with a single `solution`-tagged cell.  The
claim says the cell is removed from the `doc` variant, but the derived `doc`
variant retains it (the `doc` exclusion set is `testing`/`noauto`/`exercise`;
`README-developer.md` says solution cells are kept in the documentation
notebook). -/
theorem solution_in_doc_cex :
    derive (Notebook.mk [cSolution] []) Kind.doc =
      some (Notebook.mk [cSolution] []) := by decide

/-- C1 (amended): a cell tagged `solution` (and carrying no other
derivation-relevant tag) is retained in the `solution` variant and in the
`doc` variant, and removed from the `exercise` and `test` variants. -/
theorem solution_tag_variants (nb : Notebook) (c : Cell)
    (hc : c ∈ nb.cells)
    (hsol : "solution" ∈ c.tags)
    (ht : "testing" ∉ c.tags) (ha : "auto" ∉ c.tags)
    (hn : "noauto" ∉ c.tags) (he : "exercise" ∉ c.tags) :
    c ∈ filterCells Kind.solution nb ∧
    c ∈ filterCells Kind.doc nb ∧
    c ∉ filterCells Kind.exercise nb ∧
    c ∉ filterCells Kind.test nb := by
  refine ⟨?_, ?_, ?_, ?_⟩
  · refine (mem_filterCells_iff _ nb c).2 ⟨hc, (keepCell_eq_true_iff _ c).2 ?_⟩
    intro t htag hmem
    simp [excludeTags] at hmem
    rcases hmem with h | h <;> subst h
    · exact ht htag
    · exact ha htag
  · refine (mem_filterCells_iff _ nb c).2 ⟨hc, (keepCell_eq_true_iff _ c).2 ?_⟩
    intro t htag hmem
    simp [excludeTags] at hmem
    rcases hmem with h | h | h <;> subst h
    · exact ht htag
    · exact hn htag
    · exact he htag
  · intro hmem
    have hkeep := ((mem_filterCells_iff _ nb c).1 hmem).2
    have hdrop : keepCell Kind.exercise c = false :=
      keepCell_eq_false_of_mem hsol (by simp [excludeTags])
    simp [hdrop] at hkeep
  · intro hmem
    have hkeep := ((mem_filterCells_iff _ nb c).1 hmem).2
    have hdrop : keepCell Kind.test c = false :=
      keepCell_eq_false_of_mem hsol (by simp [excludeTags])
    simp [hdrop] at hkeep

/-- Witness for the amended C1 theorem at a concrete one-cell notebook. -/
theorem solution_tag_variants_witness :
    cSolution ∈ filterCells Kind.solution (Notebook.mk [cSolution] []) ∧
    cSolution ∈ filterCells Kind.doc (Notebook.mk [cSolution] []) ∧
    cSolution ∉ filterCells Kind.exercise (Notebook.mk [cSolution] []) ∧
    cSolution ∉ filterCells Kind.test (Notebook.mk [cSolution] []) :=
  solution_tag_variants (Notebook.mk [cSolution] []) cSolution
    (by decide) (by decide) (by decide) (by decide) (by decide) (by decide)

/-- The four-cell fixture from the spec scenario: cells tagged `[]`,
`[testing]`, `[noauto]`, `[exercise]` in that order. -/
def nbFix : Notebook := Notebook.mk [cPlain, cTesting, cNoauto, cExercise] []

/-- C3 counterexample: on the four-cell fixture the `user` variant is cells
1, 3 and 4 — the `exercise`-tagged cell 4 is retained, because the `user`
variant drops only `testing`- and `auto`-tagged cells — so the claimed
"exactly cells 1 and 3" is false. -/
theorem fixture_user_variant_cex :
    derive nbFix Kind.user =
      some (Notebook.mk [cPlain, cNoauto, cExercise] []) ∧
    [cPlain, cNoauto, cExercise] ≠ [cPlain, cNoauto] := by decide

/-- C3 (amended): on the four-cell fixture, the `test` variant is cells 1
and 2, the `doc` variant is exactly cell 1, and the `user` variant is cells
1, 3 and 4 (the `exercise` cell is retained in `user`). -/
theorem fixture_variants :
    derive nbFix Kind.test = some (Notebook.mk [cPlain, cTesting] []) ∧
    derive nbFix Kind.doc = some (Notebook.mk [cPlain] []) ∧
    derive nbFix Kind.user =
      some (Notebook.mk [cPlain, cNoauto, cExercise] []) := by decide

/-- C4 counterexample: a notebook with a single `noauto`-tagged cell.  The
claim says the cell is removed from the `user` variant, but the derived
`user` variant retains it (`README-developer.md` and `tutorial.md`: `noauto`
cells are removed only in the testing and documentation notebooks). -/
theorem noauto_in_user_cex :
    derive (Notebook.mk [cNoauto] []) Kind.user =
      some (Notebook.mk [cNoauto] []) := by decide

/-- C4 (amended): a cell tagged `noauto` (and carrying no other
derivation-relevant tag) is removed from the automated-execution `test` and
`doc` variants and retained in the `exercise`, `solution` and `user`
variants. -/
theorem noauto_tag_variants (nb : Notebook) (c : Cell)
    (hc : c ∈ nb.cells)
    (hna : "noauto" ∈ c.tags)
    (ht : "testing" ∉ c.tags) (ha : "auto" ∉ c.tags)
    (hs : "solution" ∉ c.tags) :
    c ∉ filterCells Kind.test nb ∧
    c ∉ filterCells Kind.doc nb ∧
    c ∈ filterCells Kind.exercise nb ∧
    c ∈ filterCells Kind.solution nb ∧
    c ∈ filterCells Kind.user nb := by
  refine ⟨?_, ?_, ?_, ?_, ?_⟩
  · intro hmem
    have hkeep := ((mem_filterCells_iff _ nb c).1 hmem).2
    have hdrop : keepCell Kind.test c = false :=
      keepCell_eq_false_of_mem hna (by simp [excludeTags])
    simp [hdrop] at hkeep
  · intro hmem
    have hkeep := ((mem_filterCells_iff _ nb c).1 hmem).2
    have hdrop : keepCell Kind.doc c = false :=
      keepCell_eq_false_of_mem hna (by simp [excludeTags])
    simp [hdrop] at hkeep
  · refine (mem_filterCells_iff _ nb c).2 ⟨hc, (keepCell_eq_true_iff _ c).2 ?_⟩
    intro t htag hmem
    simp [excludeTags] at hmem
    rcases hmem with h | h | h <;> subst h
    · exact ht htag
    · exact hs htag
    · exact ha htag
  · refine (mem_filterCells_iff _ nb c).2 ⟨hc, (keepCell_eq_true_iff _ c).2 ?_⟩
    intro t htag hmem
    simp [excludeTags] at hmem
    rcases hmem with h | h <;> subst h
    · exact ht htag
    · exact ha htag
  · refine (mem_filterCells_iff _ nb c).2 ⟨hc, (keepCell_eq_true_iff _ c).2 ?_⟩
    intro t htag hmem
    simp [excludeTags] at hmem
    rcases hmem with h | h <;> subst h
    · exact ht htag
    · exact ha htag

/-- Witness for the amended C4 theorem at a concrete one-cell notebook. -/
theorem noauto_tag_variants_witness :
    cNoauto ∉ filterCells Kind.test (Notebook.mk [cNoauto] []) ∧
    cNoauto ∉ filterCells Kind.doc (Notebook.mk [cNoauto] []) ∧
    cNoauto ∈ filterCells Kind.exercise (Notebook.mk [cNoauto] []) ∧
    cNoauto ∈ filterCells Kind.solution (Notebook.mk [cNoauto] []) ∧
    cNoauto ∈ filterCells Kind.user (Notebook.mk [cNoauto] []) :=
  noauto_tag_variants (Notebook.mk [cNoauto] []) cNoauto
    (by decide) (by decide) (by decide) (by decide) (by decide)

/-- C6: a source notebook with no `exercise` or `solution` tag on any cell
produces neither an `exercise` nor a `solution` variant; conversely those
two variants are produced only when some cell carries one of the two
tutorial tags. -/
theorem tutorial_gating :
    (∀ nb : Notebook,
      (∀ c ∈ nb.cells, "exercise" ∉ c.tags ∧ "solution" ∉ c.tags) →
      derive nb Kind.exercise = none ∧ derive nb Kind.solution = none) ∧
    (∀ (nb : Notebook) (k : Kind),
      (k = Kind.exercise ∨ k = Kind.solution) → derive nb k ≠ none →
      ∃ c ∈ nb.cells, "exercise" ∈ c.tags ∨ "solution" ∈ c.tags) := by
  constructor
  · intro nb h
    have htut : isTutorial nb = false := by
      simp [isTutorial, List.any_eq_false]
      intro c hc
      exact h c hc
    have hgen : ∀ k : Kind, (k == Kind.exercise || k == Kind.solution) = true →
        derive nb k = none := by
      intro k hk
      unfold derive
      split
      · rfl
      · simp [hk, htut]
    exact ⟨hgen Kind.exercise rfl, hgen Kind.solution rfl⟩
  · intro nb k hk hne
    cases htut : isTutorial nb with
    | true =>
        exact (by simpa [isTutorial, List.any_eq_true] using htut :
          ∃ c ∈ nb.cells, "exercise" ∈ c.tags ∨ "solution" ∈ c.tags)
    | false =>
        exfalso
        apply hne
        unfold derive
        split
        · rfl
        · have : (k == Kind.exercise || k == Kind.solution) = true := by
            rcases hk with h | h <;> subst h <;> rfl
          simp [this, htut]

/-- Witness for C6: a concrete untagged one-cell notebook gets neither an
exercise nor a solution variant. -/
theorem tutorial_gating_witness :
    derive (Notebook.mk [cPlain] []) Kind.exercise = none ∧
    derive (Notebook.mk [cPlain] []) Kind.solution = none :=
  tutorial_gating.1 (Notebook.mk [cPlain] []) (by decide)

/- Filesystem layer: derived-file paths, bytes, write-or-remove. -/

/-- Modelled from the spec: the byte content written for one cell (a fixed
deterministic serialization of the cell document). -/
def serializeCell (c : Cell) : String :=
  String.intercalate "|"
    [c.cellType, c.src, String.intercalate "," c.tags,
     String.intercalate "," c.outputs,
     match c.execCount with
     | none => ""
     | some n => toString n]

/-- Modelled from the spec: the byte content of a whole notebook file. -/
def serializeNb (nb : Notebook) : String :=
  String.intercalate ";" (nb.cells.map serializeCell)
    ++ "&" ++ String.intercalate "," nb.skip

/-- Modelled from the spec and the suffix table in `README-developer.md`:
the sibling path of one derived variant of a source notebook. -/
def derivedPath (base : String) (k : Kind) : String :=
  base ++ "_" ++ extName k ++ ".ipynb"

/-- A filesystem, mapping a path to the bytes stored there (if any). -/
abbrev FileSys := String → Option String

/-- The five variant kinds in a fixed order. -/
def allKinds : List Kind :=
  [Kind.test, Kind.doc, Kind.exercise, Kind.solution, Kind.user]

/-- Modelled from the spec: writing the outputs for one source notebook:
every variant path either receives the freshly derived bytes or, when
`derive` produces no notebook for that kind (skip-listed, or a non-tutorial's
exercise/solution pair), is removed — a stale derived file is not left
behind.  All other paths are untouched. -/
def writeAll (fs : FileSys) (base : String) (nb : Notebook) : FileSys :=
  fun p =>
    match allKinds.find? (fun k => derivedPath base k == p) with
    | some k => (derive nb k).map serializeNb
    | none => fs p

/-- Two derived sibling paths of the same source coincide only for the same
variant kind: the five suffixes are pairwise distinct. -/
theorem derivedPath_inj (base : String) (k1 k2 : Kind)
    (h : derivedPath base k1 = derivedPath base k2) : k1 = k2 := by
  have hd := congrArg String.data h
  unfold derivedPath at hd
  simp [String.data_append] at hd
  cases k1 <;> cases k2 <;> simp_all [extName]

/-- C5: a variant kind named in the source metadata's `idaes.skip` list is
omitted by `derive` from the output mapping entirely, and after writing, the
derived path of that kind holds no file — in particular when `test` is
listed no `_test` derived file is written, and a stale `_test` file from a
prior run (anything previously in `fs`) is removed rather than left
behind. -/
theorem skip_kind_removed (fs : FileSys) (base : String) (nb : Notebook)
    (k : Kind) (h : extName k ∈ nb.skip) :
    derive nb k = none ∧
    writeAll fs base nb (derivedPath base k) = none := by
  have hc : nb.skip.contains (extName k) = true := by
    simpa [List.elem_iff] using h
  have hd : derive nb k = none := by
    unfold derive
    split
    · rfl
    · rename_i hcond
      exact absurd hc hcond
  refine ⟨hd, ?_⟩
  unfold writeAll
  cases hfind :
      allKinds.find? (fun k2 => derivedPath base k2 == derivedPath base k) with
  | none =>
      exfalso
      have hkmem : k ∈ allKinds := by cases k <;> decide
      have hnone := List.find?_eq_none.1 hfind k hkmem
      simp at hnone
  | some k2 =>
      have hp := List.find?_some hfind
      have hpath : derivedPath base k2 = derivedPath base k := by
        simpa using hp
      have hk2 : k2 = k := derivedPath_inj base k2 k hpath
      subst hk2
      simp [hd]

/-- Witness for C5: a concrete filesystem holding a stale `_test` file, and
a source notebook that skip-lists `test`: after the run the `_test` path is
empty. -/
theorem skip_kind_removed_witness :
    derive (Notebook.mk [cPlain] ["test"]) Kind.test = none ∧
    writeAll (fun p => if p = "nb_test.ipynb" then some "stale" else none)
      "nb" (Notebook.mk [cPlain] ["test"])
      (derivedPath "nb" Kind.test) = none :=
  skip_kind_removed
    (fun p => if p = "nb_test.ipynb" then some "stale" else none)
    "nb" (Notebook.mk [cPlain] ["test"]) Kind.test (by decide)

/-- Modelled from the spec: the filesystem state relevant to one source
notebook: the authored source content plus the derived bytes per variant
kind.  The preprocessing run rewrites every derived entry from the source
and never writes the source itself. -/
structure SourceFS where
  src : Notebook
  derived : Kind → Option String

/-- Modelled from the spec: one preprocessing run over one source: each
derived variant is fully regenerated (overwritten) from the source content;
kinds with no derived notebook are absent. -/
def runPre (s : SourceFS) : SourceFS :=
  SourceFS.mk s.src (fun k => (derive s.src k).map serializeNb)

/-- C10: running derivation a second time on the unchanged source produces
byte-identical derived files: the whole pipeline is a pure function of the
source content, and the run never modifies the source, so a second run
reproduces the first run's filesystem state exactly. -/
theorem derivation_idempotent (s : SourceFS) : runPre (runPre s) = runPre s :=
  rfl

/- Raw notebook files and structural validation. -/

/-- A minimal JSON value, the raw on-disk form of a notebook file. -/
inductive JValue where
  | jnull
  | jbool (b : Bool)
  | jnum (n : Int)
  | jstr (s : String)
  | jarr (items : List JValue)
  | jobj (fields : List (String × JValue))

/-- Modelled from the spec: the error raised on a structurally malformed
individual notebook document. -/
inductive FormatError where
  | notAnObject
  | cellsMissing
  | cellsNotAList
  | cellNotAnObject
  | badCellType
  | badBody
  | badTags
  | badSkip
deriving DecidableEq, Repr

/-- Look up a key in a JSON object's field list (first occurrence). -/
def jlookup (fields : List (String × JValue)) (key : String) : Option JValue :=
  match fields.find? (fun f => f.1 == key) with
  | some f => some f.2
  | none => none

/-- Modelled from the spec: parse the `metadata.tags` entry of a cell: an
absent entry means no tags; a present entry must be a list of strings. -/
def parseTags : Option JValue → Except FormatError (List String)
  | none => Except.ok []
  | some (.jarr items) =>
      items.mapM fun it =>
        match it with
        | JValue.jstr s => Except.ok s
        | _ => Except.error FormatError.badTags
  | some _ => Except.error FormatError.badTags

/-- Modelled from the spec: parse a cell body, which the notebook format
stores as either a string or a list of line strings. -/
def parseBody : Option JValue → Except FormatError String
  | none => Except.ok ""
  | some (.jstr s) => Except.ok s
  | some (.jarr items) =>
      (items.mapM fun it =>
        match it with
        | JValue.jstr s => Except.ok s
        | _ => Except.error FormatError.badBody).map (String.intercalate "")
  | some _ => Except.error FormatError.badBody

/-- Modelled from the spec: parse one raw cell: it must be an object with a
string `cell_type`; body, tags, outputs and execution count are read from
their conventional entries. -/
def parseCell : JValue → Except FormatError Cell
  | .jobj fields => do
      let ct ←
        match jlookup fields "cell_type" with
        | some (.jstr s) => Except.ok s
        | _ => Except.error FormatError.badCellType
      let body ← parseBody (jlookup fields "source")
      let tags ←
        match jlookup fields "metadata" with
        | none => Except.ok []
        | some (.jobj mfields) => parseTags (jlookup mfields "tags")
        | some _ => Except.error FormatError.badTags
      let outs ←
        match jlookup fields "outputs" with
        | none => Except.ok []
        | some (.jarr items) =>
            items.mapM fun it =>
              match it with
              | JValue.jstr s => Except.ok s
              | _ => Except.error FormatError.badBody
        | some _ => Except.error FormatError.badBody
      let ec ←
        match jlookup fields "execution_count" with
        | none => Except.ok none
        | some .jnull => Except.ok none
        | some (.jnum n) => Except.ok (some n.toNat)
        | some _ => Except.error FormatError.badBody
      Except.ok (Cell.mk ct body tags outs ec)
  | _ => Except.error FormatError.cellNotAnObject

/-- Modelled from the spec: parse the notebook-level `metadata.idaes.skip`
list of variant-kind names; any absent level means the empty list. -/
def parseSkip : Option JValue → Except FormatError (List String)
  | none => Except.ok []
  | some (.jobj mfields) =>
      match jlookup mfields "idaes" with
      | none => Except.ok []
      | some (.jobj ifields) =>
          match jlookup ifields "skip" with
          | none => Except.ok []
          | some (.jarr items) =>
              items.mapM fun it =>
                match it with
                | JValue.jstr s => Except.ok s
                | _ => Except.error FormatError.badSkip
          | some _ => Except.error FormatError.badSkip
      | some _ => Except.error FormatError.badSkip
  | some _ => Except.error FormatError.badSkip

/-- Modelled from the spec: parse a raw notebook document.  It must be an
object whose `cells` field is a list of well-formed cells; a `cells` field
that is not a list is a structurally malformed notebook and fails with a
FormatError. -/
def parseNotebook : JValue → Except FormatError Notebook
  | .jobj fields =>
      match jlookup fields "cells" with
      | some (.jarr items) => do
          let cells ← items.mapM parseCell
          let skip ← parseSkip (jlookup fields "metadata")
          Except.ok (Notebook.mk cells skip)
      | some _ => Except.error FormatError.cellsNotAList
      | none => Except.error FormatError.cellsMissing
  | _ => Except.error FormatError.notAnObject

/-- Modelled from the spec: derivation of one source notebook, at whole
notebook granularity: parse the raw document, and only on success write the
derived variant files; on a FormatError nothing at all is written. -/
def processOne (fs : FileSys) (base : String) (raw : JValue) :
    FileSys × Option FormatError :=
  match parseNotebook raw with
  | .error e => (fs, some e)
  | .ok nb => (writeAll fs base nb, none)

/-- Modelled from the spec: a preprocessing batch runs each source notebook
in turn, threading the filesystem, and records per-source failures without
stopping. -/
def processBatch :
    List (String × JValue) → FileSys → FileSys × List (String × Option FormatError)
  | [], fs => (fs, [])
  | (base, raw) :: rest, fs =>
      let r := processOne fs base raw
      let rs := processBatch rest r.1
      (rs.1, (base, r.2) :: rs.2)

/-- C7: a structurally malformed source notebook fails with a FormatError
and writes no output file at all — the filesystem is returned unchanged for
that source — while the remaining notebooks of the batch are processed
exactly as if the malformed one were absent. -/
theorem malformed_nb_atomic (fs : FileSys) (base : String) (raw : JValue)
    (e : FormatError) (rest : List (String × JValue))
    (h : parseNotebook raw = Except.error e) :
    processOne fs base raw = (fs, some e) ∧
    processBatch ((base, raw) :: rest) fs =
      ((processBatch rest fs).1, (base, some e) :: (processBatch rest fs).2) := by
  have h1 : processOne fs base raw = (fs, some e) := by
    unfold processOne
    rw [h]
  refine ⟨h1, ?_⟩
  show
    (let r := processOne fs base raw
     let rs := processBatch rest r.1
     (rs.1, (base, r.2) :: rs.2)) =
      ((processBatch rest fs).1, (base, some e) :: (processBatch rest fs).2)
  rw [h1]

/-- A raw notebook whose `cells` field is a number rather than a list. -/
def rawBad : JValue := JValue.jobj [("cells", JValue.jnum 3)]

/-- A well-formed raw notebook with a single untagged code cell. -/
def rawGood : JValue :=
  JValue.jobj
    [("cells",
      JValue.jarr [JValue.jobj [("cell_type", JValue.jstr "code"),
                                ("source", JValue.jstr "x = 1")]])]

/-- Witness for C7: a malformed notebook in a two-element batch: it fails
with `cellsNotAList`, writes nothing, and the well-formed notebook after it
is still processed. -/
theorem malformed_nb_atomic_witness :
    processOne (fun _ => none) "bad" rawBad =
      ((fun _ => none : FileSys), some FormatError.cellsNotAList) ∧
    processBatch [("bad", rawBad), ("good", rawGood)] (fun _ => none) =
      ((processBatch [("good", rawGood)] (fun _ => none)).1,
       ("bad", some FormatError.cellsNotAList) ::
         (processBatch [("good", rawGood)] (fun _ => none)).2) :=
  malformed_nb_atomic (fun _ => none) "bad" rawBad
    FormatError.cellsNotAList [("good", rawGood)] (by rfl)

/- Cached-execution merge for the test variant. -/

/-- Modelled from the spec: one entry of the prior execution-result cache:
a content-derived key for an identically-shaped notebook, with the executed
notebook whose cells hold outputs and execution counts. -/
structure CacheEntry where
  key : String
  nb : Notebook

/-- Modelled from the spec: the execution cache available to one
preprocessing invocation. -/
structure Cache where
  entries : List CacheEntry

/-- Modelled from the spec: the content-derived key of a notebook, computed
from the cell bodies only (outputs and counts do not contribute, so an
unexecuted notebook matches its executed prior shape). -/
def contentKey (nb : Notebook) : String :=
  String.intercalate ";" (nb.cells.map Cell.src)

/-- Modelled from the spec (and the `find_cb` developer notebook): look up
the cache entry matching a notebook's content-derived key. -/
def findMatch (cache : Cache) (nb : Notebook) : Option CacheEntry :=
  cache.entries.find? (fun e => e.key == contentKey nb)

/-- Modelled from the spec: copy forward cached execution outputs and counts
cell-by-cell onto the freshly derived cells. -/
def mergeCells : List Cell → List Cell → List Cell
  | [], _ => []
  | c :: cs, [] => c :: cs
  | c :: cs, d :: ds =>
      Cell.mk c.cellType c.src c.tags d.outputs d.execCount :: mergeCells cs ds

/-- Modelled from the spec: `merge_cached_execution`: when a matching prior
cache entry exists, copy its outputs forward; when none matches, the
notebook is returned unchanged — a miss is a normal result, not an error. -/
def mergeCachedExecution (nb : Notebook) (cache : Cache) : Notebook :=
  match findMatch cache nb with
  | none => nb
  | some e => Notebook.mk (mergeCells nb.cells e.nb.cells) nb.skip

/-- C8: a `test` notebook with no matching prior cache entry is returned
unchanged by `merge_cached_execution` (outputs left empty), the missing
match being an ordinary result rather than an error. -/
theorem cache_miss_unchanged (nb : Notebook) (cache : Cache)
    (h : findMatch cache nb = none) :
    mergeCachedExecution nb cache = nb := by
  unfold mergeCachedExecution
  rw [h]

/-- Witness for C8: merging against an empty cache leaves the four-cell
fixture notebook untouched. -/
theorem cache_miss_unchanged_witness :
    mergeCachedExecution nbFix (Cache.mk []) = nbFix :=
  cache_miss_unchanged nbFix (Cache.mk []) (by rfl)

/- Notebook Collection Discoverer. -/

/-- Modelled from the spec: a section node of the table of contents,
holding one file reference. -/
structure TocSec where
  file : String

/-- Modelled from the spec: a chapter node: one file reference plus an
optional list of section file references. -/
structure TocChapter where
  file : String
  sections : List TocSec

/-- Modelled from the spec: a part node: an ordered list of chapters. -/
structure TocPart where
  chapters : List TocChapter

/-- Modelled from the spec: a parsed table-of-contents document: an ordered
list of parts. -/
structure Toc where
  parts : List TocPart

/-- Modelled from the spec: the flat, order-preserving list of referenced
file base-names: each chapter followed by its sections, parts in listed
order. -/
def tocFiles (toc : Toc) : List String :=
  toc.parts.flatMap fun p =>
    p.chapters.flatMap fun ch => ch.file :: ch.sections.map TocSec.file

/-- Modelled from the spec: strip the documentation suffix from a referenced
base-name. -/
def stripDocSuffix (s : String) : String :=
  if s.endsWith "_doc" then s.dropRight 4 else s

/-- Modelled from the spec: the expected on-disk source path for a
referenced base-name. -/
def srcPath (f : String) : String := stripDocSuffix f ++ "_src.ipynb"

/-- Outcome for one table-of-contents entry during discovery. -/
inductive EntryResult where
  | notFoundRes (f : String)
  | failedRes (f : String) (e : FormatError)
  | processedRes (f : String)
deriving DecidableEq, Repr

/-- A raw filesystem, mapping a path to the raw JSON document stored
there. -/
abbrev RawFS := String → Option JValue

/-- Modelled from the spec: the Discoverer walks every table-of-contents
entry in order: a missing source file is reported as not found and the
traversal continues; a present but malformed file fails that entry with its
FormatError; otherwise the entry is processed. -/
def discoverAll (fs : RawFS) (toc : Toc) : List EntryResult :=
  (tocFiles toc).map fun f =>
    match fs (srcPath f) with
    | none => EntryResult.notFoundRes f
    | some raw =>
        match parseNotebook raw with
        | .error e => EntryResult.failedRes f e
        | .ok _ => EntryResult.processedRes f

/-- Whether one entry outcome is fatal for the process exit status. -/
def isFatal : EntryResult → Bool
  | .failedRes _ _ => true
  | _ => false

/-- Modelled from the spec: the process exit status is non-zero only when
some notebook fails structural validation; missing files alone leave it
zero. -/
def exitCode (rs : List EntryResult) : Nat :=
  if rs.any isFatal then 1 else 0

/-- C9: when every source file that is present parses cleanly, discovery
visits every table-of-contents entry to completion — a missing source file
is reported as not found without aborting the traversal — and the process
exit code stays 0 on NotFoundError alone. -/
theorem missing_file_nonfatal (fs : RawFS) (toc : Toc)
    (h : ∀ f ∈ tocFiles toc, ∀ raw, fs (srcPath f) = some raw →
      ∃ nb, parseNotebook raw = Except.ok nb) :
    (discoverAll fs toc).length = (tocFiles toc).length ∧
    exitCode (discoverAll fs toc) = 0 ∧
    ∀ f ∈ tocFiles toc, fs (srcPath f) = none →
      EntryResult.notFoundRes f ∈ discoverAll fs toc := by
  refine ⟨by simp [discoverAll], ?_, ?_⟩
  · unfold exitCode
    have hfatal : (discoverAll fs toc).any isFatal = false := by
      rw [List.any_eq_false]
      intro r hr
      rcases List.mem_map.1 hr with ⟨f, hf, hrf⟩
      cases hfs : fs (srcPath f) with
      | none => simp [← hrf, hfs, isFatal]
      | some raw =>
          rcases h f hf raw hfs with ⟨nb, hnb⟩
          simp [← hrf, hfs, hnb, isFatal]
    rw [hfatal]
    rfl
  · intro f hf hmiss
    refine List.mem_map.2 ⟨f, hf, ?_⟩
    rw [hmiss]

/-- Concrete filesystem for the C9 witness: one present well-formed source,
everything else missing. -/
def fsOne : RawFS := fun p => if p = "a_src.ipynb" then some rawGood else none

/-- Concrete table of contents for the C9 witness: one chapter referencing
`a_doc` with one section referencing `b_doc`; the source for `b_doc` is
missing on disk. -/
def tocOne : Toc :=
  Toc.mk [TocPart.mk [TocChapter.mk "a_doc" [TocSec.mk "b_doc"]]]

/-- Witness for C9: with one present and one missing source the traversal
still visits both entries, reports the missing one as not found, and the
exit code is 0. -/
theorem missing_file_nonfatal_witness :
    (discoverAll fsOne tocOne).length = (tocFiles tocOne).length ∧
    exitCode (discoverAll fsOne tocOne) = 0 ∧
    ∀ f ∈ tocFiles tocOne, fsOne (srcPath f) = none →
      EntryResult.notFoundRes f ∈ discoverAll fsOne tocOne :=
  missing_file_nonfatal fsOne tocOne
    (by
      intro f hf raw hraw
      by_cases hp : srcPath f = "a_src.ipynb"
      · rw [hp] at hraw
        have hr : raw = rawGood := by
          simpa [fsOne] using hraw.symm
        subst hr
        exact ⟨Notebook.mk [Cell.mk "code" "x = 1" [] [] none] [], rfl⟩
      · exfalso
        have : (none : Option JValue) = some raw := by
          simpa [fsOne, hp] using hraw.symm
        exact Option.noConfusion this)

end IdaesEx
